import Mathlib

set_option autoImplicit false

/- Shallow embedding of the plasma client library (src/plasma_client.c).

   The client talks to a store over a socket; system effects (socket writes,
   mmap, close, usleep, memcpy) are recorded in an explicit event trace, and
   the results of system calls that the environment decides (mmap, read,
   connect) are passed in as oracle parameters.  Fatal paths (CHECK failures,
   mmap failure, exhausted connect retries) are modelled as `Except.error`. -/

/-- Modelled from the spec: the 20-byte opaque object identifier (`object_id`
in `plasma.h`, which is not part of this source slice).  The client never
inspects it, so it is kept abstract as a byte list. -/
structure object_id where
  bytes : List Nat
  deriving DecidableEq

/-- Modelled from the spec: the request-kind tags PLASMA_CREATE, PLASMA_GET,
PLASMA_CONTAINS, PLASMA_SEAL, PLASMA_DELETE, PLASMA_TRANSFER declared in
`plasma.h` (not in this slice).  Their numeric values are irrelevant to the
client logic, so they are an inductive type. -/
inductive message_type where
  | PLASMA_CREATE
  | PLASMA_GET
  | PLASMA_CONTAINS
  | PLASMA_SEAL
  | PLASMA_DELETE
  | PLASMA_TRANSFER
  deriving DecidableEq

/-- Modelled from the spec: the fixed-size `plasma_request` record of
`plasma.h` (not in this slice); fields are the ones `plasma_client.c`
populates (target object id, Create sizes, Transfer octets and port).
Designated initializers in C zero the remaining fields, so every
construction site below fills all fields explicitly. -/
structure plasma_request where
  object_id : object_id
  data_size : Int
  metadata_size : Int
  addr : List Int
  port : Int
  deriving DecidableEq

/-- Modelled from the spec: the mapping handle inside a reply, identifying
the store buffer file (`store_fd`, used as the cache key) and how many bytes
to map (`mmap_size`). -/
structure object_handle where
  store_fd : Int
  mmap_size : Int
  deriving DecidableEq

/-- Modelled from the spec: the object descriptor in a Create/Get reply:
offsets of the data and metadata segments inside the mapped buffer and
their sizes. -/
structure plasma_object where
  handle : object_handle
  data_offset : Int
  metadata_offset : Int
  data_size : Int
  metadata_size : Int
  deriving DecidableEq

/-- Modelled from the spec: the fixed-size `plasma_reply` record: an object
descriptor plus the `has_object` flag used by Contains (a C `int`). -/
structure plasma_reply where
  object : plasma_object
  has_object : Int
  deriving DecidableEq

/-- Trace of the observable system effects the client performs.  `mmap_ev`
additionally records the cache key (`store_fd_val`) of the call site so that
per-buffer mapping counts can be stated. -/
inductive event where
  | send (chan : Int) (ty : message_type) (req : plasma_request)
  | recv_fd_ev (chan : Int)
  | read_ev (chan : Int) (r : Int)
  | mmap_ev (fd : Int) (store_fd_val : Int) (map_size : Int) (result : Int)
  | close_ev (fd : Int)
  | munmap_ev (base : Int)
  | memcpy_ev (dst : Int) (src : List Nat) (len : Int)
  | sleep_us (us : Int)
  | connect_attempt (n : Nat) (fd : Int)
  | free_conn
  deriving DecidableEq

/-- One entry of the client mmap table (`client_mmap_table_entry`): the store
fd value used as key and the base address returned by mmap. -/
structure client_mmap_table_entry where
  key : Int
  pointer : Int
  deriving DecidableEq

/-- `struct plasma_store_conn`: socket fd plus the per-connection table of
buffer files already memory mapped. -/
structure plasma_store_conn where
  conn : Int
  mmap_table : List client_mmap_table_entry
  deriving DecidableEq

/-- HASH_FIND_INT on the mmap table: base address recorded for a key, if any. -/
def find_pointer (table : List client_mmap_table_entry) (k : Int) : Option Int :=
  (table.find? (fun e => e.key == k)).map client_mmap_table_entry.pointer

/-- `plasma_send_request`: one `write_message` call on the channel. -/
def plasma_send_request (fd : Int) (ty : message_type) (req : plasma_request) :
    List event :=
  [event.send fd ty req]

/-- `lookup_or_mmap`: if `store_fd_val` is already a key of the table, close
the fresh fd and return the recorded pointer; otherwise mmap (`mmap_result`
is the OS answer, `none` standing for MAP_FAILED, which is fatal), close the
fd, record the new entry and return the fresh base address. -/
def lookup_or_mmap (conn : plasma_store_conn) (fd : Int) (store_fd_val : Int)
    (map_size : Int) (mmap_result : Option Int) :
    Except String (Int × plasma_store_conn × List event) :=
  match conn.mmap_table.find? (fun e => e.key == store_fd_val) with
  | some entry => .ok (entry.pointer, conn, [event.close_ev fd])
  | none =>
    match mmap_result with
    | none => .error "mmap failed"
    | some result =>
      let entry : client_mmap_table_entry :=
        { key := store_fd_val, pointer := result }
      .ok (result,
           { conn with mmap_table := conn.mmap_table ++ [entry] },
           [event.mmap_ev fd store_fd_val map_size result, event.close_ev fd])

/-- `plasma_create`: send the Create request, receive the reply plus fd,
CHECK that the reply sizes match the request and that metadata directly
follows data, resolve the mapping, and copy the metadata bytes into place
when a metadata buffer was supplied.  Returns the data pointer. -/
def plasma_create (conn : plasma_store_conn) (oid : object_id)
    (data_size : Int) (metadata : Option (List Nat)) (metadata_size : Int)
    (reply : plasma_reply) (fd : Int) (mmap_result : Option Int) :
    Except String (Int × plasma_store_conn × List event) :=
  let req : plasma_request :=
    { object_id := oid, data_size := data_size,
      metadata_size := metadata_size, addr := [0, 0, 0, 0], port := 0 }
  let io_evs := plasma_send_request conn.conn message_type.PLASMA_CREATE req
      ++ [event.recv_fd_ev conn.conn]
  let object := reply.object
  if object.data_size ≠ data_size then
    .error "CHECK failed: object data_size"
  else if object.metadata_size ≠ metadata_size then
    .error "CHECK failed: object metadata_size"
  else if object.metadata_offset ≠ object.data_offset + data_size then
    .error "CHECK failed: object metadata_offset"
  else
    match lookup_or_mmap conn fd object.handle.store_fd
        object.handle.mmap_size mmap_result with
    | .error e => .error e
    | .ok (base, conn', evs) =>
      let data := base + object.data_offset
      match metadata with
      | none => .ok (data, conn', io_evs ++ evs)
      | some m =>
        .ok (data, conn',
             io_evs ++ evs
               ++ [event.memcpy_ev (data + object.data_size) m metadata_size])

/-- Result record of `plasma_get`: the out-parameters the C function writes.
`metadata` is `none` exactly when the caller passed a NULL metadata
out-parameter, in which case neither metadata output is written. -/
structure get_result where
  size : Int
  data : Int
  metadata : Option (Int × Int)
  deriving DecidableEq

/-- `plasma_get`: send the Get request, receive the reply plus fd, resolve
the mapping, return data pointer and size, and the trailing metadata
pointer and size when requested (`want_metadata` models a non-NULL
`metadata` out-parameter). -/
def plasma_get (conn : plasma_store_conn) (oid : object_id)
    (reply : plasma_reply) (fd : Int) (mmap_result : Option Int)
    (want_metadata : Bool) :
    Except String (get_result × plasma_store_conn × List event) :=
  let req : plasma_request :=
    { object_id := oid, data_size := 0, metadata_size := 0,
      addr := [0, 0, 0, 0], port := 0 }
  let io_evs := plasma_send_request conn.conn message_type.PLASMA_GET req
      ++ [event.recv_fd_ev conn.conn]
  let object := reply.object
  match lookup_or_mmap conn fd object.handle.store_fd
      object.handle.mmap_size mmap_result with
  | .error e => .error e
  | .ok (base, conn', evs) =>
    let data := base + object.data_offset
    let res : get_result :=
      { size := object.data_size, data := data,
        metadata :=
          if want_metadata then
            some (data + object.data_size, object.metadata_size)
          else none }
    .ok (res, conn', io_evs ++ evs)

/-- `plasma_contains`: send the Contains request, read the fixed-size reply
(`read_result` is the return value of `read`; -1 and 0 are fatal), and
return the reply's `has_object` field. -/
def plasma_contains (conn : plasma_store_conn) (oid : object_id)
    (reply : plasma_reply) (read_result : Int) :
    Except String (Int × plasma_store_conn × List event) :=
  let req : plasma_request :=
    { object_id := oid, data_size := 0, metadata_size := 0,
      addr := [0, 0, 0, 0], port := 0 }
  let io_evs := plasma_send_request conn.conn message_type.PLASMA_CONTAINS req
      ++ [event.read_ev conn.conn read_result]
  if read_result = -1 then .error "read error"
  else if read_result = 0 then .error "connection disconnected"
  else .ok (reply.has_object, conn, io_evs)

/-- `plasma_seal`: fire-and-forget Seal request; no reply, no state change. -/
def plasma_seal (conn : plasma_store_conn) (oid : object_id) :
    plasma_store_conn × List event :=
  let req : plasma_request :=
    { object_id := oid, data_size := 0, metadata_size := 0,
      addr := [0, 0, 0, 0], port := 0 }
  (conn, plasma_send_request conn.conn message_type.PLASMA_SEAL req)

/-- `plasma_delete`: fire-and-forget Delete request; no reply, no state
change. -/
def plasma_delete (conn : plasma_store_conn) (oid : object_id) :
    plasma_store_conn × List event :=
  let req : plasma_request :=
    { object_id := oid, data_size := 0, metadata_size := 0,
      addr := [0, 0, 0, 0], port := 0 }
  (conn, plasma_send_request conn.conn message_type.PLASMA_DELETE req)

/-- The retry loop of `plasma_store_connect`: `oracle n` is the fd returned
by the n-th `connect_ipc_sock` attempt (negative = failure).  `i` is the
current value of `num_attempts`, `fuel` the remaining iterations of
`num_attempts < 50`.  After every failed attempt the client sleeps 100 ms. -/
def connect_loop (oracle : Nat → Int) : Nat → Nat → Option Int × List event
  | _, 0 => (none, [])
  | i, fuel + 1 =>
    let fd := oracle i
    if fd ≥ 0 then (some fd, [event.connect_attempt i fd])
    else
      let rest := connect_loop oracle (i + 1) fuel
      (rest.1,
       event.connect_attempt i fd :: event.sleep_us 100000 :: rest.2)

/-- `plasma_store_connect`: up to 50 attempts; on success, a fresh connection
with a NULL (empty) mmap table; if every attempt fails, a fatal error. -/
def plasma_store_connect (oracle : Nat → Int) :
    Except String plasma_store_conn × List event :=
  match connect_loop oracle 0 50 with
  | (some fd, evs) => (.ok { conn := fd, mmap_table := [] }, evs)
  | (none, evs) => (.error "could not connect to store", evs)

/-- `plasma_store_disconnect`: close the control channel and free the
connection struct (which holds the mmap-table head).  No region is
unmapped. -/
def plasma_store_disconnect (conn : plasma_store_conn) : List event :=
  [event.close_ev conn.conn, event.free_conn]

/-- C `isspace` for the default locale, as consulted by `strtol`. -/
def is_space_char (c : Char) : Bool :=
  c == ' ' || c == '\t' || c == '\n' || c == '\x0b' || c == '\x0c' || c == '\r'

/-- Numeric value of a decimal digit character. -/
def digit_val (c : Char) : Int :=
  Int.ofNat c.toNat - 48

/-- Value of a run of decimal digit characters. -/
def digits_val (ds : List Char) : Int :=
  ds.foldl (fun a c => a * 10 + digit_val c) 0

/-- `strtol(s, &end, 10)` on a character list: skip whitespace, accept an
optional sign, consume the maximal run of decimal digits.  Returns the
parsed value and the rest of the string (the `end` pointer); when no digits
are found it returns 0 with `end` at the original start. -/
def strtol10 (s : List Char) : Int × List Char :=
  let s1 := s.dropWhile is_space_char
  match s1 with
  | [] => (0, s)
  | c :: rest =>
    if c == '-' then
      let ds := rest.takeWhile Char.isDigit
      if ds.isEmpty then (0, s)
      else (-(digits_val ds), rest.dropWhile Char.isDigit)
    else if c == '+' then
      let ds := rest.takeWhile Char.isDigit
      if ds.isEmpty then (0, s)
      else (digits_val ds, rest.dropWhile Char.isDigit)
    else
      let ds := (c :: rest).takeWhile Char.isDigit
      if ds.isEmpty then (0, s)
      else (digits_val ds, (c :: rest).dropWhile Char.isDigit)

/-- The octet loop of `plasma_transfer`: each iteration runs `strtol` from
the current `end` pointer and then advances `end` by one to skip the dot. -/
def transfer_parse : Nat → List Char → List Int × List Char
  | 0, e => ([], e)
  | n + 1, e =>
    let p := strtol10 e
    let rest := transfer_parse n (p.2.drop 1)
    (p.1 :: rest.1, rest.2)

/-- `plasma_transfer`: parse four decimal octets out of the dotted-quad
`addr` string, fill the request's `addr` array and `port`, and send one
Transfer request on the manager channel. -/
def plasma_transfer (manager : Int) (addr : List Char) (port : Int)
    (oid : object_id) : List event :=
  let octets := (transfer_parse 4 addr).1
  let req : plasma_request :=
    { object_id := oid, data_size := 0, metadata_size := 0,
      addr := octets, port := port }
  plasma_send_request manager message_type.PLASMA_TRANSFER req

/-- One resolution demand on the mmap cache: the received fd, the store fd
value (cache key), the mapping size, and the OS's answer should mmap be
called. -/
structure resolve_call where
  fd : Int
  store_fd_val : Int
  map_size : Int
  mmap_result : Option Int
  deriving DecidableEq

/-- Resolve a sequence of Create/Get replies through `lookup_or_mmap`,
threading the connection state and concatenating the event traces. -/
def resolve_seq (conn : plasma_store_conn) :
    List resolve_call → Except String (List Int × plasma_store_conn × List event)
  | [] => .ok ([], conn, [])
  | c :: cs =>
    match lookup_or_mmap conn c.fd c.store_fd_val c.map_size c.mmap_result with
    | .error e => .error e
    | .ok (a, conn', evs) =>
      match resolve_seq conn' cs with
      | .error e => .error e
      | .ok (as, conn'', evs') => .ok (a :: as, conn'', evs ++ evs')

/-- Number of mmap system calls in a trace. -/
def count_mmap (evs : List event) : Nat :=
  evs.countP (fun e => match e with | event.mmap_ev _ _ _ _ => true | _ => false)

/-- Number of connect attempts in a trace. -/
def count_attempts (evs : List event) : Nat :=
  evs.countP (fun e => match e with | event.connect_attempt _ _ => true | _ => false)

/-- Number of 100 ms sleeps in a trace. -/
def count_sleeps (evs : List event) : Nat :=
  evs.countP (fun e => match e with | event.sleep_us _ => true | _ => false)

/-- Number of `close` system calls in a trace. -/
def count_close (evs : List event) : Nat :=
  evs.countP (fun e => match e with | event.close_ev _ => true | _ => false)

/-- The memcpy calls of a trace, in order. -/
def memcpy_events (evs : List event) : List event :=
  evs.filter (fun e => match e with | event.memcpy_ev _ _ _ => true | _ => false)

/-- A cache hit: the fresh fd is closed and the recorded pointer returned;
the connection state is untouched. -/
theorem lookup_or_mmap_of_hit (conn : plasma_store_conn) (fd b sz : Int)
    (r : Option Int) (p : Int) (h : find_pointer conn.mmap_table b = some p) :
    lookup_or_mmap conn fd b sz r = .ok (p, conn, [event.close_ev fd]) := by
  unfold find_pointer at h
  unfold lookup_or_mmap
  cases hf : conn.mmap_table.find? (fun e => e.key == b) with
  | none => rw [hf] at h; simp at h
  | some entry =>
    rw [hf] at h
    simp only [Option.map_some', Option.some.injEq] at h
    simp [h]

/-- A cache miss with a successful mmap: the region is mapped, the fd is
closed, and the new entry is appended to the table. -/
theorem lookup_or_mmap_of_miss (conn : plasma_store_conn) (fd b sz a : Int)
    (h : find_pointer conn.mmap_table b = none) :
    lookup_or_mmap conn fd b sz (some a) =
      .ok (a,
           { conn := conn.conn,
             mmap_table := conn.mmap_table ++ [{ key := b, pointer := a }] },
           [event.mmap_ev fd b sz a, event.close_ev fd]) := by
  unfold find_pointer at h
  unfold lookup_or_mmap
  cases hf : conn.mmap_table.find? (fun e => e.key == b) with
  | none => rfl
  | some entry => rw [hf] at h; simp at h

/-- A cache miss with MAP_FAILED is fatal. -/
theorem lookup_or_mmap_of_miss_fail (conn : plasma_store_conn) (fd b sz : Int)
    (h : find_pointer conn.mmap_table b = none) :
    lookup_or_mmap conn fd b sz none = .error "mmap failed" := by
  unfold find_pointer at h
  unfold lookup_or_mmap
  cases hf : conn.mmap_table.find? (fun e => e.key == b) with
  | none => rfl
  | some entry => rw [hf] at h; simp at h

/-- Appending a fresh entry for key `b` to a table without `b` makes
`find_pointer` return the fresh pointer. -/
theorem find_pointer_append_fresh (t : List client_mmap_table_entry)
    (b a : Int) (h : find_pointer t b = none) :
    find_pointer (t ++ [{ key := b, pointer := a }]) b = some a := by
  unfold find_pointer at h ⊢
  rw [List.find?_append]
  cases hf : t.find? (fun e => e.key == b) with
  | some entry => rw [hf] at h; simp at h
  | none => simp

/-- Entries already present survive a `lookup_or_mmap` call untouched. -/
theorem lookup_or_mmap_preserves_entries (conn : plasma_store_conn)
    (fd b sz : Int) (r : Option Int) (a : Int) (conn' : plasma_store_conn)
    (evs : List event)
    (h : lookup_or_mmap conn fd b sz r = .ok (a, conn', evs)) :
    (∀ e ∈ conn.mmap_table, e ∈ conn'.mmap_table) ∧
    (conn'.mmap_table = conn.mmap_table ∨
     conn'.mmap_table = conn.mmap_table ++ [{ key := b, pointer := a }]) := by
  unfold lookup_or_mmap at h
  cases hf : conn.mmap_table.find? (fun e => e.key == b) with
  | some entry =>
    rw [hf] at h
    simp only [Except.ok.injEq, Prod.mk.injEq] at h
    obtain ⟨-, hconn, -⟩ := h
    subst hconn
    exact ⟨fun e he => he, Or.inl rfl⟩
  | none =>
    rw [hf] at h
    cases r with
    | none => simp at h
    | some res =>
      simp only [Except.ok.injEq, Prod.mk.injEq] at h
      obtain ⟨ha, hconn, -⟩ := h
      subst hconn
      subst ha
      constructor
      · intro e he
        exact List.mem_append_left _ he
      · right
        rfl

/-- Once the key is cached, any sequence of resolutions for it returns the
cached pointer every time, leaves the cache entry in place, and performs no
mmap call. -/
theorem resolve_seq_of_cached :
    ∀ (cs : List resolve_call) (conn : plasma_store_conn) (b p : Int),
      find_pointer conn.mmap_table b = some p →
      (∀ c ∈ cs, c.store_fd_val = b) →
      ∀ as conn' evs, resolve_seq conn cs = .ok (as, conn', evs) →
        (∀ x ∈ as, x = p) ∧ find_pointer conn'.mmap_table b = some p ∧
        count_mmap evs = 0 := by
  intro cs
  induction cs with
  | nil =>
    intro conn b p hp hall as conn' evs hres
    simp only [resolve_seq, Except.ok.injEq, Prod.mk.injEq] at hres
    obtain ⟨h1, h2, h3⟩ := hres
    subst h1; subst h2; subst h3
    exact ⟨by simp, hp, rfl⟩
  | cons c cs ih =>
    intro conn b p hp hall as conn' evs hres
    have hc : c.store_fd_val = b := hall c (List.mem_cons_self c cs)
    simp only [resolve_seq] at hres
    rw [hc, lookup_or_mmap_of_hit conn c.fd b c.map_size c.mmap_result p hp]
      at hres
    dsimp only at hres
    cases hrest : resolve_seq conn cs with
    | error e => rw [hrest] at hres; simp at hres
    | ok out =>
      obtain ⟨as', conn'', evs'⟩ := out
      rw [hrest] at hres
      simp only [Except.ok.injEq, Prod.mk.injEq] at hres
      obtain ⟨h1, h2, h3⟩ := hres
      subst h1; subst h2; subst h3
      have := ih conn b p hp (fun x hx => hall x (List.mem_cons_of_mem c hx))
        as' conn'' evs' hrest
      refine ⟨?_, this.2.1, ?_⟩
      · intro x hx
        cases hx with
        | head => rfl
        | tail _ hx => exact this.1 x hx
      · simp [count_mmap, List.countP_cons] at this ⊢
        exact this.2.2

/-- C1: Idempotent mapping invariant — over any sequence of Create/Get reply
resolutions that all reference the same buffer identifier `b`, every
resolution returns the same base address, a previously cached address is
always the one returned, and the mmap system call happens exactly once for
`b` if it was not cached before (and never if it was). -/
theorem mmap_cache_idempotent
    (conn : plasma_store_conn) (b : Int) (calls : List resolve_call)
    (as : List Int) (conn' : plasma_store_conn) (evs : List event)
    (hall : ∀ c ∈ calls, c.store_fd_val = b)
    (hres : resolve_seq conn calls = .ok (as, conn', evs)) :
    (∀ x ∈ as, ∀ y ∈ as, x = y) ∧
    (∀ p, find_pointer conn.mmap_table b = some p → ∀ x ∈ as, x = p) ∧
    count_mmap evs =
      (match find_pointer conn.mmap_table b with
       | some _ => 0
       | none => if calls.isEmpty then 0 else 1) := by
  cases hp : find_pointer conn.mmap_table b with
  | some p =>
    have h := resolve_seq_of_cached calls conn b p hp hall as conn' evs hres
    refine ⟨fun x hx y hy => (h.1 x hx).trans (h.1 y hy).symm, ?_, h.2.2⟩
    intro q hq x hx
    exact (h.1 x hx).trans (Option.some.inj hq)
  | none =>
    cases calls with
    | nil =>
      simp only [resolve_seq, Except.ok.injEq, Prod.mk.injEq] at hres
      obtain ⟨h1, h2, h3⟩ := hres
      subst h1; subst h2; subst h3
      refine ⟨by simp, ?_, by simp [count_mmap]⟩
      intro q hq x hx
      exact absurd hx (List.not_mem_nil x)
    | cons c cs =>
      have hc : c.store_fd_val = b := hall c (List.mem_cons_self c cs)
      simp only [resolve_seq] at hres
      rw [hc] at hres
      cases hmr : c.mmap_result with
      | none =>
        rw [hmr, lookup_or_mmap_of_miss_fail conn c.fd b c.map_size hp]
          at hres
        simp at hres
      | some a =>
        rw [hmr, lookup_or_mmap_of_miss conn c.fd b c.map_size a hp] at hres
        dsimp only at hres
        cases hrest : resolve_seq
            ⟨conn.conn, conn.mmap_table ++ [{ key := b, pointer := a }]⟩ cs with
        | error e => rw [hrest] at hres; simp at hres
        | ok out =>
          obtain ⟨as', conn'', evs'⟩ := out
          rw [hrest] at hres
          simp only [Except.ok.injEq, Prod.mk.injEq] at hres
          obtain ⟨h1, h2, h3⟩ := hres
          subst h1; subst h2; subst h3
          have hfp : find_pointer
              (conn.mmap_table ++ [{ key := b, pointer := a }]) b = some a :=
            find_pointer_append_fresh conn.mmap_table b a hp
          have h := resolve_seq_of_cached cs
            ⟨conn.conn, conn.mmap_table ++ [{ key := b, pointer := a }]⟩ b a
            hfp (fun x hx => hall x (List.mem_cons_of_mem c hx))
            as' conn'' evs' hrest
          have hall_eq : ∀ x ∈ a :: as', x = a := by
            intro x hx
            cases hx with
            | head => rfl
            | tail _ hx => exact h.1 x hx
          refine ⟨fun x hx y hy => (hall_eq x hx).trans (hall_eq y hy).symm,
                  ?_, ?_⟩
          · intro q hq
            exact absurd hq (by simp)
          · simp only [count_mmap, List.countP_append, List.countP_cons]
              at h ⊢
            simp [h.2.2]

/-- C1 witness: starting from an empty cache, two resolutions of buffer id 3
return the same address 4096 and the trace holds exactly one mmap call. -/
theorem mmap_cache_idempotent_witness :
    (4096 : Int) = 4096 ∧
    count_mmap [event.mmap_ev 7 3 64 4096, event.close_ev 7,
                event.close_ev 8] = 1 := by
  have h := mmap_cache_idempotent ⟨5, []⟩ 3
    [⟨7, 3, 64, some 4096⟩, ⟨8, 3, 64, some 5000⟩]
    [4096, 4096] ⟨5, [⟨3, 4096⟩]⟩
    [event.mmap_ev 7 3 64 4096, event.close_ev 7, event.close_ev 8]
    (by decide) rfl
  exact ⟨h.1 4096 (by decide) 4096 (by decide), h.2.2.trans (by decide)⟩

/-- C3: Descriptor hygiene — a successful resolution closes the received fd
exactly once: immediately on a cache hit, and right after the mmap call on a
cache miss. -/
theorem lookup_or_mmap_closes_fd
    (conn : plasma_store_conn) (fd b sz : Int) (r : Option Int)
    (a : Int) (conn' : plasma_store_conn) (evs : List event)
    (h : lookup_or_mmap conn fd b sz r = .ok (a, conn', evs)) :
    count_close evs = 1 ∧
    ((find_pointer conn.mmap_table b = some a ∧
      evs = [event.close_ev fd]) ∨
     (find_pointer conn.mmap_table b = none ∧
      evs = [event.mmap_ev fd b sz a, event.close_ev fd])) := by
  cases hf : find_pointer conn.mmap_table b with
  | some p =>
    rw [lookup_or_mmap_of_hit conn fd b sz r p hf] at h
    simp only [Except.ok.injEq, Prod.mk.injEq] at h
    obtain ⟨h1, h2, h3⟩ := h
    subst h1; subst h3
    exact ⟨rfl, Or.inl ⟨rfl, rfl⟩⟩
  | none =>
    cases r with
    | none =>
      rw [lookup_or_mmap_of_miss_fail conn fd b sz hf] at h
      simp at h
    | some res =>
      rw [lookup_or_mmap_of_miss conn fd b sz res hf] at h
      simp only [Except.ok.injEq, Prod.mk.injEq] at h
      obtain ⟨h1, h2, h3⟩ := h
      subst h1; subst h3
      exact ⟨rfl, Or.inr ⟨rfl, rfl⟩⟩

/-- C3 witness: a cache miss maps buffer id 3 and closes fd 7 exactly once. -/
theorem lookup_or_mmap_closes_fd_witness :
    count_close [event.mmap_ev 7 3 64 4096, event.close_ev 7] = 1 :=
  (lookup_or_mmap_closes_fd ⟨5, []⟩ 7 3 64 (some 4096) 4096
    ⟨5, [⟨3, 4096⟩]⟩ [event.mmap_ev 7 3 64 4096, event.close_ev 7] rfl).1

/-- C10: Mapping-cache frame condition — Contains, Seal and Delete leave the
mmap table untouched, and mapping resolution never removes or modifies an
existing entry: it either leaves the table unchanged or appends one fresh
entry. -/
theorem mapping_cache_frame (conn : plasma_store_conn) (oid : object_id) :
    (plasma_seal conn oid).1.mmap_table = conn.mmap_table ∧
    (plasma_delete conn oid).1.mmap_table = conn.mmap_table ∧
    (∀ reply r ho conn' evs,
       plasma_contains conn oid reply r = .ok (ho, conn', evs) →
       conn'.mmap_table = conn.mmap_table) ∧
    (∀ fd b sz mr a conn' evs,
       lookup_or_mmap conn fd b sz mr = .ok (a, conn', evs) →
       (∀ e ∈ conn.mmap_table, e ∈ conn'.mmap_table) ∧
       (conn'.mmap_table = conn.mmap_table ∨
        conn'.mmap_table = conn.mmap_table
          ++ [{ key := b, pointer := a }])) := by
  refine ⟨rfl, rfl, ?_, ?_⟩
  · intro reply r ho conn' evs h
    unfold plasma_contains at h
    by_cases h1 : r = -1
    · simp [h1] at h
    · by_cases h2 : r = 0
      · simp [h1, h2] at h
      · simp only [h1, h2, if_false, Except.ok.injEq, Prod.mk.injEq] at h
        rw [← h.2.1]
  · intro fd b sz mr a conn' evs h
    exact lookup_or_mmap_preserves_entries conn fd b sz mr a conn' evs h

/-- C10 witness: Seal and Delete leave a one-entry cache as is, and a
resolution of a new buffer id preserves the existing entry. -/
theorem mapping_cache_frame_witness :
    (plasma_seal ⟨5, [⟨3, 4096⟩]⟩ ⟨[1]⟩).1.mmap_table
        = [{ key := 3, pointer := 4096 }] ∧
    (plasma_delete ⟨5, [⟨3, 4096⟩]⟩ ⟨[1]⟩).1.mmap_table
        = [{ key := 3, pointer := 4096 }] ∧
    (client_mmap_table_entry.mk 3 4096
       ∈ [client_mmap_table_entry.mk 3 4096,
          client_mmap_table_entry.mk 9 2000]) := by
  have h := mapping_cache_frame ⟨5, [⟨3, 4096⟩]⟩ ⟨[1]⟩
  refine ⟨h.1, h.2.1, ?_⟩
  have h4 := h.2.2.2 7 9 64 (some 2000) 2000 ⟨5, [⟨3, 4096⟩, ⟨9, 2000⟩]⟩
    [event.mmap_ev 7 9 64 2000, event.close_ev 7] rfl
  exact h4.1 ⟨3, 4096⟩ (by simp)

/-- A successful resolution performs no memcpy: its trace is either the
cache-hit close or the mmap-then-close pair. -/
theorem lookup_or_mmap_no_memcpy (conn : plasma_store_conn) (fd b sz : Int)
    (r : Option Int) (a : Int) (conn' : plasma_store_conn) (evs : List event)
    (h : lookup_or_mmap conn fd b sz r = .ok (a, conn', evs)) :
    memcpy_events evs = [] := by
  unfold lookup_or_mmap at h
  cases hf : conn.mmap_table.find? (fun e => e.key == b) with
  | some entry =>
    rw [hf] at h
    simp only [Except.ok.injEq, Prod.mk.injEq] at h
    rw [← h.2.2]
    rfl
  | none =>
    rw [hf] at h
    cases r with
    | none => simp at h
    | some res =>
      simp only [Except.ok.injEq, Prod.mk.injEq] at h
      rw [← h.2.2]
      rfl

/-- C2: Create reply validation — `plasma_create` returns a pointer only
when the reply's data size and metadata size equal the request's values and
the reply's metadata offset equals data offset plus data size; any mismatch
yields the fatal CHECK error instead. -/
theorem plasma_create_validates_reply
    (conn : plasma_store_conn) (oid : object_id) (data_size : Int)
    (metadata : Option (List Nat)) (metadata_size : Int)
    (reply : plasma_reply) (fd : Int) (mr : Option Int) :
    (∀ d conn' evs,
       plasma_create conn oid data_size metadata metadata_size reply fd mr
         = .ok (d, conn', evs) →
       reply.object.data_size = data_size ∧
       reply.object.metadata_size = metadata_size ∧
       reply.object.metadata_offset = reply.object.data_offset + data_size) ∧
    ((reply.object.data_size ≠ data_size ∨
      reply.object.metadata_size ≠ metadata_size ∨
      reply.object.metadata_offset ≠ reply.object.data_offset + data_size) →
     ∃ msg, plasma_create conn oid data_size metadata metadata_size reply fd mr
         = .error msg) := by
  constructor
  · intro d conn' evs h
    unfold plasma_create at h
    by_cases h1 : reply.object.data_size = data_size
    · rw [if_neg (not_not_intro h1)] at h
      by_cases h2 : reply.object.metadata_size = metadata_size
      · rw [if_neg (not_not_intro h2)] at h
        by_cases h3 : reply.object.metadata_offset
            = reply.object.data_offset + data_size
        · exact ⟨h1, h2, h3⟩
        · rw [if_pos h3] at h
          exact absurd h (by simp)
      · rw [if_pos h2] at h
        exact absurd h (by simp)
    · rw [if_pos h1] at h
      exact absurd h (by simp)
  · intro hbad
    unfold plasma_create
    rcases hbad with h | h | h
    · exact ⟨_, if_pos h⟩
    · by_cases h1 : reply.object.data_size = data_size
      · refine ⟨"CHECK failed: object metadata_size", ?_⟩
        rw [if_neg (not_not_intro h1), if_pos h]
      · exact ⟨_, if_pos h1⟩
    · by_cases h1 : reply.object.data_size = data_size
      · by_cases h2 : reply.object.metadata_size = metadata_size
        · refine ⟨"CHECK failed: object metadata_offset", ?_⟩
          rw [if_neg (not_not_intro h1), if_neg (not_not_intro h2),
              if_pos h]
        · refine ⟨"CHECK failed: object metadata_size", ?_⟩
          rw [if_neg (not_not_intro h1), if_pos h2]
      · exact ⟨_, if_pos h1⟩

/-- C2 witness: a consistent Create reply passes all three checks, and a
reply whose metadata offset is off by one is rejected with a CHECK error. -/
theorem plasma_create_validates_reply_witness :
    ((plasma_reply.mk ⟨⟨1, 64⟩, 4, 14, 10, 2⟩ 0).object.data_size = 10 ∧
     (plasma_reply.mk ⟨⟨1, 64⟩, 4, 14, 10, 2⟩ 0).object.metadata_size = 2 ∧
     (plasma_reply.mk ⟨⟨1, 64⟩, 4, 14, 10, 2⟩ 0).object.metadata_offset
       = (plasma_reply.mk ⟨⟨1, 64⟩, 4, 14, 10, 2⟩ 0).object.data_offset
         + 10) ∧
    plasma_create ⟨5, []⟩ ⟨[]⟩ 10 (some [9, 9]) 2
        ⟨⟨⟨1, 64⟩, 4, 15, 10, 2⟩, 0⟩ 7 (some 1000)
      = .error "CHECK failed: object metadata_offset" := by
  constructor
  · exact (plasma_create_validates_reply ⟨5, []⟩ ⟨[]⟩ 10 (some [9, 9]) 2
      ⟨⟨⟨1, 64⟩, 4, 14, 10, 2⟩, 0⟩ 7 (some 1000)).1 1004 ⟨5, [⟨1, 1000⟩]⟩
      [event.send 5 message_type.PLASMA_CREATE ⟨⟨[]⟩, 10, 2, [0, 0, 0, 0], 0⟩,
       event.recv_fd_ev 5, event.mmap_ev 7 1 64 1000, event.close_ev 7,
       event.memcpy_ev 1014 [9, 9] 2] rfl
  · obtain ⟨msg, hmsg⟩ := (plasma_create_validates_reply ⟨5, []⟩ ⟨[]⟩ 10
      (some [9, 9]) 2 ⟨⟨⟨1, 64⟩, 4, 15, 10, 2⟩, 0⟩ 7 (some 1000)).2
      (by decide)
    rfl

/-- C4: Create postcondition — on success the returned pointer is the
resolved base address plus the reply's data offset; when metadata was
supplied, exactly one memcpy happens, of the metadata bytes with length
`metadata_size`, at the data pointer plus `data_size`; with no metadata,
no memcpy happens. -/
theorem plasma_create_data_pointer
    (conn : plasma_store_conn) (oid : object_id) (data_size : Int)
    (metadata : Option (List Nat)) (metadata_size : Int)
    (reply : plasma_reply) (fd : Int) (mr : Option Int)
    (d : Int) (conn' : plasma_store_conn) (evs : List event)
    (h : plasma_create conn oid data_size metadata metadata_size reply fd mr
        = .ok (d, conn', evs)) :
    ∃ base evs₀,
      lookup_or_mmap conn fd reply.object.handle.store_fd
          reply.object.handle.mmap_size mr = .ok (base, conn', evs₀) ∧
      d = base + reply.object.data_offset ∧
      (∀ m, metadata = some m →
        memcpy_events evs
          = [event.memcpy_ev (d + data_size) m metadata_size]) ∧
      (metadata = none → memcpy_events evs = []) := by
  unfold plasma_create at h
  by_cases h1 : reply.object.data_size = data_size
  case neg => rw [if_pos h1] at h; exact absurd h (by simp)
  rw [if_neg (not_not_intro h1)] at h
  by_cases h2 : reply.object.metadata_size = metadata_size
  case neg => rw [if_pos h2] at h; exact absurd h (by simp)
  rw [if_neg (not_not_intro h2)] at h
  by_cases h3 : reply.object.metadata_offset
      = reply.object.data_offset + data_size
  case neg => rw [if_pos h3] at h; exact absurd h (by simp)
  rw [if_neg (not_not_intro h3)] at h
  cases hres : lookup_or_mmap conn fd reply.object.handle.store_fd
      reply.object.handle.mmap_size mr with
  | error e => rw [hres] at h; exact absurd h (by simp)
  | ok out =>
    obtain ⟨base, conn₁, evs₀⟩ := out
    rw [hres] at h
    dsimp only at h
    have h0 := lookup_or_mmap_no_memcpy conn fd reply.object.handle.store_fd
      reply.object.handle.mmap_size mr base conn₁ evs₀ hres
    cases metadata with
    | none =>
      simp only [Except.ok.injEq, Prod.mk.injEq] at h
      obtain ⟨hd, hc, hevs⟩ := h
      subst hd; subst hc; subst hevs
      refine ⟨base, evs₀, rfl, rfl, ?_, ?_⟩
      · intro m hm; exact absurd hm (by simp)
      · intro _
        simp only [memcpy_events, plasma_send_request, List.filter_append]
          at h0 ⊢
        simp [h0]
    | some m =>
      simp only [Except.ok.injEq, Prod.mk.injEq] at h
      obtain ⟨hd, hc, hevs⟩ := h
      subst hd; subst hc; subst hevs
      refine ⟨base, evs₀, rfl, rfl, ?_, ?_⟩
      · intro m' hm'
        have hmm : m = m' := Option.some.inj hm'
        subst hmm
        rw [h1]
        simp only [memcpy_events, plasma_send_request, List.filter_append]
          at h0 ⊢
        simp [h0]
      · intro hnone; exact absurd hnone (by simp)

/-- C4 witness: creating a 10-byte object with 2 metadata bytes resolves the
pointer 1000 + 4 and copies the metadata at 1004 + 10. -/
theorem plasma_create_data_pointer_witness :
    memcpy_events
        [event.send 5 message_type.PLASMA_CREATE
           ⟨⟨[]⟩, 10, 2, [0, 0, 0, 0], 0⟩,
         event.recv_fd_ev 5, event.mmap_ev 7 1 64 1000,
         event.close_ev 7, event.memcpy_ev 1014 [9, 9] 2]
      = [event.memcpy_ev (1004 + 10) [9, 9] 2] := by
  obtain ⟨base, evs₀, hl, hd, hsome, hnone⟩ :=
    plasma_create_data_pointer ⟨5, []⟩ ⟨[]⟩ 10 (some [9, 9]) 2
      ⟨⟨⟨1, 64⟩, 4, 14, 10, 2⟩, 0⟩ 7 (some 1000) 1004 ⟨5, [⟨1, 1000⟩]⟩
      [event.send 5 message_type.PLASMA_CREATE ⟨⟨[]⟩, 10, 2, [0, 0, 0, 0], 0⟩,
       event.recv_fd_ev 5, event.mmap_ev 7 1 64 1000, event.close_ev 7,
       event.memcpy_ev 1014 [9, 9] 2] rfl
  exact hsome [9, 9] rfl

/-- C5: Get postcondition — the returned data pointer is the resolved base
address plus the reply's data offset and the returned size is the reply's
data size; with a non-NULL metadata out-parameter the metadata pointer is
the data pointer plus the data size and the metadata size is the reply's;
with a NULL one, no metadata output is produced. -/
theorem plasma_get_postcondition
    (conn : plasma_store_conn) (oid : object_id) (reply : plasma_reply)
    (fd : Int) (mr : Option Int) (want_metadata : Bool)
    (res : get_result) (conn' : plasma_store_conn) (evs : List event)
    (h : plasma_get conn oid reply fd mr want_metadata
        = .ok (res, conn', evs)) :
    ∃ base evs₀,
      lookup_or_mmap conn fd reply.object.handle.store_fd
          reply.object.handle.mmap_size mr = .ok (base, conn', evs₀) ∧
      res.data = base + reply.object.data_offset ∧
      res.size = reply.object.data_size ∧
      (want_metadata = true →
        res.metadata = some (res.data + reply.object.data_size,
                             reply.object.metadata_size)) ∧
      (want_metadata = false → res.metadata = none) := by
  unfold plasma_get at h
  dsimp only at h
  cases hres : lookup_or_mmap conn fd reply.object.handle.store_fd
      reply.object.handle.mmap_size mr with
  | error e => rw [hres] at h; exact absurd h (by simp)
  | ok out =>
    obtain ⟨base, conn₁, evs₀⟩ := out
    rw [hres] at h
    dsimp only at h
    simp only [Except.ok.injEq, Prod.mk.injEq] at h
    obtain ⟨hr, hc, hevs⟩ := h
    subst hc; subst hevs
    refine ⟨base, evs₀, rfl, ?_, ?_, ?_, ?_⟩
    · rw [← hr]
    · rw [← hr]
    · intro hw
      rw [← hr]
      simp only [hw, if_true]
    · intro hw
      rw [← hr]
      simp only [hw]
      rfl

/-- C5 witness: a Get on a fresh buffer returns data pointer 1000 + 4, size
10 and metadata pointer 1004 + 10 with size 2. -/
theorem plasma_get_postcondition_witness :
    (get_result.mk 10 1004 (some (1014, 2))).size = 10 ∧
    (get_result.mk 10 1004 (some (1014, 2))).metadata
      = some ((get_result.mk 10 1004 (some (1014, 2))).data + 10, 2) := by
  obtain ⟨base, evs₀, hl, hdata, hsize, hmeta, hnometa⟩ :=
    plasma_get_postcondition ⟨5, []⟩ ⟨[]⟩ ⟨⟨⟨1, 64⟩, 4, 14, 10, 2⟩, 0⟩ 7
      (some 1000) true ⟨10, 1004, some (1014, 2)⟩ ⟨5, [⟨1, 1000⟩]⟩
      [event.send 5 message_type.PLASMA_GET ⟨⟨[]⟩, 0, 0, [0, 0, 0, 0], 0⟩,
       event.recv_fd_ev 5, event.mmap_ev 7 1 64 1000, event.close_ev 7] rfl
  exact ⟨hsize, hmeta rfl⟩

/-- C7: Contains behavior — a read returning -1 or 0 is fatal; otherwise the
reply's `has_object` value is returned as an ordinary result together with
the send/read trace, whatever its value (false included). -/
theorem plasma_contains_reply_behavior
    (conn : plasma_store_conn) (oid : object_id) (reply : plasma_reply)
    (r : Int) :
    (r = -1 → plasma_contains conn oid reply r = .error "read error") ∧
    (r = 0 → plasma_contains conn oid reply r
        = .error "connection disconnected") ∧
    (r ≠ -1 → r ≠ 0 →
      plasma_contains conn oid reply r =
        .ok (reply.has_object, conn,
             [event.send conn.conn message_type.PLASMA_CONTAINS
                { object_id := oid, data_size := 0, metadata_size := 0,
                  addr := [0, 0, 0, 0], port := 0 },
              event.read_ev conn.conn r])) := by
  refine ⟨?_, ?_, ?_⟩
  · intro h
    unfold plasma_contains
    rw [if_pos h]
  · intro h
    unfold plasma_contains
    rw [if_neg (by rw [h]; decide), if_pos h]
  · intro h1 h2
    unfold plasma_contains
    rw [if_neg h1, if_neg h2]
    rfl

/-- C7 witness: with a successful 40-byte read, Contains returns the reply's
has_object value 0 (a valid "not present" result), and reads of 0 and -1
are fatal. -/
theorem plasma_contains_reply_behavior_witness :
    plasma_contains ⟨5, []⟩ ⟨[]⟩ ⟨⟨⟨1, 64⟩, 0, 10, 10, 0⟩, 0⟩ (-1)
        = .error "read error" ∧
    plasma_contains ⟨5, []⟩ ⟨[]⟩ ⟨⟨⟨1, 64⟩, 0, 10, 10, 0⟩, 0⟩ 40 =
        .ok (0, ⟨5, []⟩,
             [event.send 5 message_type.PLASMA_CONTAINS
                ⟨⟨[]⟩, 0, 0, [0, 0, 0, 0], 0⟩,
              event.read_ev 5 40]) := by
  constructor
  · exact (plasma_contains_reply_behavior ⟨5, []⟩ ⟨[]⟩
      ⟨⟨⟨1, 64⟩, 0, 10, 10, 0⟩, 0⟩ (-1)).1 rfl
  · exact (plasma_contains_reply_behavior ⟨5, []⟩ ⟨[]⟩
      ⟨⟨⟨1, 64⟩, 0, 10, 10, 0⟩, 0⟩ 40).2.2 (by decide) (by decide)

/-- C9: Disconnect — the trace of `plasma_store_disconnect` is exactly the
close of the control channel followed by the free of the connection struct
(the cache bookkeeping holder); in particular no region is unmapped. -/
theorem plasma_store_disconnect_events (conn : plasma_store_conn) :
    plasma_store_disconnect conn
      = [event.close_ev conn.conn, event.free_conn] ∧
    (∀ base, event.munmap_ev base ∉ plasma_store_disconnect conn) := by
  refine ⟨rfl, ?_⟩
  intro base h
  simp [plasma_store_disconnect] at h

/-- The retry loop makes at most `fuel` connect attempts. -/
theorem connect_loop_attempts_le (oracle : Nat → Int) :
    ∀ fuel i, count_attempts (connect_loop oracle i fuel).2 ≤ fuel := by
  intro fuel
  induction fuel with
  | zero => intro i; simp [connect_loop, count_attempts]
  | succ n ih =>
    intro i
    unfold connect_loop
    by_cases h : oracle i ≥ 0
    · rw [if_pos h]
      simp [count_attempts, List.countP_cons]
    · rw [if_neg h]
      dsimp only
      simp only [count_attempts] at ih
      simp [count_attempts, List.countP_cons]
      have := ih (i + 1)
      omega

/-- If the first success among the attempts starting at `i` comes at offset
`n < fuel`, the loop stops there with that fd, after `n + 1` attempts and
`n` sleeps. -/
theorem connect_loop_first_success (oracle : Nat → Int) :
    ∀ n fuel i, n < fuel → oracle (i + n) ≥ 0 →
      (∀ m, m < n → oracle (i + m) < 0) →
      ∃ evs, connect_loop oracle i fuel = (some (oracle (i + n)), evs) ∧
        count_attempts evs = n + 1 ∧ count_sleeps evs = n := by
  intro n
  induction n with
  | zero =>
    intro fuel i hlt hok _
    obtain ⟨f, rfl⟩ : ∃ f, fuel = f + 1 := by
      cases fuel with
      | zero => omega
      | succ f => exact ⟨f, rfl⟩
    rw [Nat.add_zero] at hok
    unfold connect_loop
    rw [if_pos hok]
    exact ⟨[event.connect_attempt i (oracle i)], by rw [Nat.add_zero],
           rfl, rfl⟩
  | succ k ih =>
    intro fuel i hlt hok hfail
    obtain ⟨f, rfl⟩ : ∃ f, fuel = f + 1 := by
      cases fuel with
      | zero => omega
      | succ f => exact ⟨f, rfl⟩
    have h0 : oracle i < 0 := by
      have := hfail 0 (Nat.succ_pos k)
      rwa [Nat.add_zero] at this
    have hok' : oracle (i + 1 + k) ≥ 0 := by
      have : i + 1 + k = i + (k + 1) := by omega
      rwa [this]
    have hfail' : ∀ m, m < k → oracle (i + 1 + m) < 0 := by
      intro m hm
      have heq : i + 1 + m = i + (m + 1) := by omega
      rw [heq]
      exact hfail (m + 1) (by omega)
    obtain ⟨evs', heq, hca, hcs⟩ := ih f (i + 1) (by omega) hok' hfail'
    unfold connect_loop
    rw [if_neg (by omega)]
    dsimp only
    rw [heq]
    refine ⟨event.connect_attempt i (oracle i)
        :: event.sleep_us 100000 :: evs', ?_, ?_, ?_⟩
    · have : i + 1 + k = i + (k + 1) := by omega
      rw [← this]
    · simp only [count_attempts] at hca
      simp [count_attempts, List.countP_cons]
      omega
    · simp only [count_sleeps] at hcs
      simp [count_sleeps, List.countP_cons]
      omega

/-- If every attempt in the budget fails, the loop returns no fd after
exactly `fuel` attempts, each followed by a 100 ms sleep. -/
theorem connect_loop_all_fail (oracle : Nat → Int) :
    ∀ fuel i, (∀ m, m < fuel → oracle (i + m) < 0) →
      ∃ evs, connect_loop oracle i fuel = (none, evs) ∧
        count_attempts evs = fuel ∧ count_sleeps evs = fuel := by
  intro fuel
  induction fuel with
  | zero => intro i _; exact ⟨[], rfl, rfl, rfl⟩
  | succ f ih =>
    intro i hfail
    have h0 : oracle i < 0 := by
      have := hfail 0 (Nat.succ_pos f)
      rwa [Nat.add_zero] at this
    have hfail' : ∀ m, m < f → oracle (i + 1 + m) < 0 := by
      intro m hm
      have heq : i + 1 + m = i + (m + 1) := by omega
      rw [heq]
      exact hfail (m + 1) (by omega)
    obtain ⟨evs', heq, hca, hcs⟩ := ih (i + 1) hfail'
    unfold connect_loop
    rw [if_neg (by omega)]
    dsimp only
    rw [heq]
    refine ⟨event.connect_attempt i (oracle i)
        :: event.sleep_us 100000 :: evs', rfl, ?_, ?_⟩
    · simp only [count_attempts] at hca
      simp [count_attempts, List.countP_cons]
      omega
    · simp only [count_sleeps] at hcs
      simp [count_sleeps, List.countP_cons]
      omega

/-- Every sleep the retry loop performs is the 100 ms (100000 microsecond)
sleep. -/
theorem connect_loop_sleep_duration (oracle : Nat → Int) :
    ∀ fuel i us, event.sleep_us us ∈ (connect_loop oracle i fuel).2 →
      us = 100000 := by
  intro fuel
  induction fuel with
  | zero => intro i us h; simp [connect_loop] at h
  | succ f ih =>
    intro i us h
    unfold connect_loop at h
    by_cases hc : oracle i ≥ 0
    · rw [if_pos hc] at h
      simp at h
    · rw [if_neg hc] at h
      dsimp only at h
      rcases List.mem_cons.mp h with h1 | h1
      · exact absurd h1 (by simp)
      · rcases List.mem_cons.mp h1 with h2 | h2
        · exact (event.sleep_us.inj h2.symm).symm
        · exact ih (i + 1) us h2

/-- C6: Connect retry bound — never more than 50 attempts; if attempt `n`
(counting from 0, `n < 50`) is the first to succeed, the call returns a
connection with that fd and an empty mapping cache after `n + 1` attempts
and `n` sleeps; if all 50 attempts fail, the call ends in the fatal error
and never yields a connection. -/
theorem plasma_store_connect_retry (oracle : Nat → Int) :
    count_attempts (plasma_store_connect oracle).2 ≤ 50 ∧
    (∀ n, n < 50 → oracle n ≥ 0 → (∀ m, m < n → oracle m < 0) →
      (plasma_store_connect oracle).1
          = .ok { conn := oracle n, mmap_table := [] } ∧
      count_attempts (plasma_store_connect oracle).2 = n + 1 ∧
      count_sleeps (plasma_store_connect oracle).2 = n) ∧
    ((∀ m, m < 50 → oracle m < 0) →
      (plasma_store_connect oracle).1
          = .error "could not connect to store") ∧
    (∀ us, event.sleep_us us ∈ (plasma_store_connect oracle).2 →
      us = 100000) := by
  refine ⟨?_, ?_, ?_, ?_⟩
  · have hb := connect_loop_attempts_le oracle 50 0
    unfold plasma_store_connect
    cases hcl : connect_loop oracle 0 50 with
    | mk r evs =>
      rw [hcl] at hb
      cases r <;> exact hb
  · intro n hn hok hfail
    have hok' : oracle (0 + n) ≥ 0 := by rwa [Nat.zero_add]
    have hfail' : ∀ m, m < n → oracle (0 + m) < 0 := by
      intro m hm
      rw [Nat.zero_add]
      exact hfail m hm
    obtain ⟨evs, heq, hca, hcs⟩ :=
      connect_loop_first_success oracle n 50 0 hn hok' hfail'
    rw [Nat.zero_add] at heq
    unfold plasma_store_connect
    rw [heq]
    exact ⟨rfl, hca, hcs⟩
  · intro hfail
    have hfail' : ∀ m, m < 50 → oracle (0 + m) < 0 := by
      intro m hm
      rw [Nat.zero_add]
      exact hfail m hm
    obtain ⟨evs, heq, -, -⟩ := connect_loop_all_fail oracle 50 0 hfail'
    unfold plasma_store_connect
    rw [heq]
  · intro us hus
    have hsnd : (plasma_store_connect oracle).2
        = (connect_loop oracle 0 50).2 := by
      unfold plasma_store_connect
      cases connect_loop oracle 0 50 with
      | mk r evs => cases r <;> rfl
    rw [hsnd] at hus
    exact connect_loop_sleep_duration oracle 50 0 us hus

/-- C6 witness: when the fourth attempt (index 3) is the first to succeed,
connect returns fd 9 with an empty cache after 4 attempts and 3 sleeps. -/
theorem plasma_store_connect_retry_witness :
    (plasma_store_connect (fun n => if n == 3 then 9 else -1)).1
        = .ok { conn := 9, mmap_table := [] } ∧
    count_attempts
        (plasma_store_connect (fun n => if n == 3 then 9 else -1)).2 = 4 ∧
    count_sleeps
        (plasma_store_connect (fun n => if n == 3 then 9 else -1)).2 = 3 := by
  have h := (plasma_store_connect_retry (fun n => if n == 3 then 9 else -1)).2.1
    3 (by decide) (by decide) (by decide)
  exact ⟨h.1, h.2.1, h.2.2⟩

/-- A decimal digit is not whitespace. -/
theorem isDigit_not_space (c : Char) (h : c.isDigit = true) :
    is_space_char c = false := by
  unfold is_space_char
  by_contra hc
  simp only [Bool.not_eq_false, Bool.or_eq_true, beq_iff_eq] at hc
  rcases hc with ((((h1 | h1) | h1) | h1) | h1) | h1 <;>
    (subst h1; exact absurd h (by decide))

/-- A decimal digit is not the minus sign. -/
theorem isDigit_not_minus (c : Char) (h : c.isDigit = true) :
    (c == '-') = false := by
  by_contra hc
  simp only [Bool.not_eq_false, beq_iff_eq] at hc
  subst hc
  exact absurd h (by decide)

/-- A decimal digit is not the plus sign. -/
theorem isDigit_not_plus (c : Char) (h : c.isDigit = true) :
    (c == '+') = false := by
  by_contra hc
  simp only [Bool.not_eq_false, beq_iff_eq] at hc
  subst hc
  exact absurd h (by decide)

/-- The maximal digit run of `d ++ rest` is exactly `d` when `d` is all
digits and `rest` does not start with a digit. -/
theorem takeWhile_digits_append (d rest : List Char)
    (hd : ∀ c ∈ d, c.isDigit = true)
    (hrest : ∀ c, rest.head? = some c → c.isDigit = false) :
    (d ++ rest).takeWhile Char.isDigit = d ∧
    (d ++ rest).dropWhile Char.isDigit = rest := by
  induction d with
  | nil =>
    simp only [List.nil_append]
    cases rest with
    | nil => exact ⟨rfl, rfl⟩
    | cons c cs =>
      have hc : c.isDigit = false := hrest c rfl
      constructor
      · simp [List.takeWhile_cons, hc]
      · simp [List.dropWhile_cons, hc]
  | cons c cs ih =>
    have hc := hd c (List.mem_cons_self c cs)
    have ih' := ih (fun x hx => hd x (List.mem_cons_of_mem c hx))
    constructor
    · simp [List.takeWhile_cons, hc, ih'.1]
    · simp [List.dropWhile_cons, hc, ih'.2]

/-- `strtol` on a nonempty run of digits followed by a non-digit rest parses
the digits and leaves `end` at the rest. -/
theorem strtol10_digits (d rest : List Char) (hne : d ≠ [])
    (hd : ∀ c ∈ d, c.isDigit = true)
    (hrest : ∀ c, rest.head? = some c → c.isDigit = false) :
    strtol10 (d ++ rest) = (digits_val d, rest) := by
  obtain ⟨c, cs, rfl⟩ : ∃ c cs, d = c :: cs := by
    cases d with
    | nil => exact absurd rfl hne
    | cons c cs => exact ⟨c, cs, rfl⟩
  have hc : c.isDigit = true := hd c (List.mem_cons_self c cs)
  have htd := takeWhile_digits_append (c :: cs) rest hd hrest
  simp only [List.cons_append] at htd
  have hsp : List.dropWhile is_space_char (c :: (cs ++ rest))
      = c :: (cs ++ rest) := by
    rw [List.dropWhile_cons, isDigit_not_space c hc]
    simp
  unfold strtol10
  simp only [List.cons_append, hsp]
  simp only [isDigit_not_minus c hc, isDigit_not_plus c hc,
             Bool.false_eq_true, if_false]
  rw [htd.1, htd.2]
  simp

/-- The head of a string starting with a dot is not a digit. -/
theorem head_dot_not_digit (x : List Char) :
    ∀ c, ('.' :: x).head? = some c → c.isDigit = false := by
  intro c hc
  simp only [List.head?_cons, Option.some.injEq] at hc
  subst hc
  decide

/-- The empty string has no head, so the non-digit-head condition holds
vacuously. -/
theorem head_nil_not_digit :
    ∀ c, ([] : List Char).head? = some c → c.isDigit = false := by
  intro c hc
  simp at hc

/-- The four-iteration octet loop on a well-formed dotted quad parses the
four digit runs in order and consumes the whole string. -/
theorem transfer_parse_dotted (d1 d2 d3 d4 : List Char)
    (h1 : d1 ≠ []) (hd1 : ∀ c ∈ d1, c.isDigit = true)
    (h2 : d2 ≠ []) (hd2 : ∀ c ∈ d2, c.isDigit = true)
    (h3 : d3 ≠ []) (hd3 : ∀ c ∈ d3, c.isDigit = true)
    (h4 : d4 ≠ []) (hd4 : ∀ c ∈ d4, c.isDigit = true) :
    transfer_parse 4 (d1 ++ '.' :: (d2 ++ '.' :: (d3 ++ '.' :: d4)))
      = ([digits_val d1, digits_val d2, digits_val d3, digits_val d4],
         []) := by
  have s1 := strtol10_digits d1 ('.' :: (d2 ++ '.' :: (d3 ++ '.' :: d4)))
    h1 hd1 (head_dot_not_digit _)
  have s2 := strtol10_digits d2 ('.' :: (d3 ++ '.' :: d4)) h2 hd2
    (head_dot_not_digit _)
  have s3 := strtol10_digits d3 ('.' :: d4) h3 hd3 (head_dot_not_digit _)
  have s4 := strtol10_digits d4 [] h4 hd4 head_nil_not_digit
  rw [List.append_nil] at s4
  simp only [transfer_parse, s1, s2, s3, s4, List.drop_succ_cons,
             List.drop_zero, List.drop_nil]

/-- C8: Transfer encoding — for any well-formed dotted quad of decimal digit
runs, `plasma_transfer` sends exactly one Transfer request whose address
fields are the four parsed octets in order and whose port is the given
port. -/
theorem plasma_transfer_encoding
    (manager port : Int) (oid : object_id) (d1 d2 d3 d4 : List Char)
    (h1 : d1 ≠ []) (hd1 : ∀ c ∈ d1, c.isDigit = true)
    (h2 : d2 ≠ []) (hd2 : ∀ c ∈ d2, c.isDigit = true)
    (h3 : d3 ≠ []) (hd3 : ∀ c ∈ d3, c.isDigit = true)
    (h4 : d4 ≠ []) (hd4 : ∀ c ∈ d4, c.isDigit = true) :
    plasma_transfer manager (d1 ++ '.' :: (d2 ++ '.' :: (d3 ++ '.' :: d4)))
        port oid
      = [event.send manager message_type.PLASMA_TRANSFER
           { object_id := oid, data_size := 0, metadata_size := 0,
             addr := [digits_val d1, digits_val d2, digits_val d3,
                      digits_val d4],
             port := port }] := by
  unfold plasma_transfer
  rw [transfer_parse_dotted d1 d2 d3 d4 h1 hd1 h2 hd2 h3 hd3 h4 hd4]
  rfl

/-- C8 witness: destination "127.0.0.1" with port 1234 yields a Transfer
request with address octets [127, 0, 0, 1] and port 1234. -/
theorem plasma_transfer_encoding_witness :
    plasma_transfer 3
        (['1', '2', '7'] ++ '.' :: (['0'] ++ '.' :: (['0'] ++ '.' :: ['1'])))
        1234 ⟨[1]⟩
      = [event.send 3 message_type.PLASMA_TRANSFER
           ⟨⟨[1]⟩, 0, 0, [127, 0, 0, 1], 1234⟩] := by
  have h := plasma_transfer_encoding 3 1234 ⟨[1]⟩
    ['1', '2', '7'] ['0'] ['0'] ['1']
    (by decide) (by decide) (by decide) (by decide)
    (by decide) (by decide) (by decide) (by decide)
  rw [h]
  decide
